import Mathlib

/-!
A shallow embedding of the tcglog-parser event-data decoding core
(`src/efi.go` and `src/eventdata.go`) and proofs about it.

The two Go files are two revisions of the same `tcglog` package and both
declare several of the same symbols (`parseEFI_2_SpecIdEvent`,
`readDevicePathNode`, `readDevicePath`, `EFIGUID`, ...).  The embedding
keeps both: definitions from `src/efi.go` live in namespace `Tcglog.Efi`,
definitions from `src/eventdata.go` in namespace `Tcglog.Ev`, and shared
primitives (byte readers, registry, shared record types) at the top of
namespace `Tcglog`.

Bytes are `Nat` (callers constrain them below 256 where it matters),
streams are `List Nat` consumed front-to-back, and the one seekable
stream (the UTF-16 extractor of `src/efi.go`, which rewinds by one byte)
is modelled as a byte list plus a cursor position.  Fallible Go code
(`binary.Read` errors, functions returning `nil`) becomes `Option` /
`Except`.
-/

namespace Tcglog

/-- Read one byte from the front of a stream (`binary.Read` of a `uint8`). -/
def readU8 : List Nat → Option (Nat × List Nat)
  | [] => none
  | b :: r => some (b, r)

/-- Read a little-endian `uint16` from the front of a stream. -/
def readU16LE : List Nat → Option (Nat × List Nat)
  | b0 :: b1 :: r => some (b0 + 256 * b1, r)
  | _ => none

/-- Read a big-endian `uint16` from the front of a stream
(`binary.Read(stream, binary.BigEndian, ...)` in `decodeEFIGUID`). -/
def readU16BE : List Nat → Option (Nat × List Nat)
  | b0 :: b1 :: r => some (256 * b0 + b1, r)
  | _ => none

/-- Read a little-endian `uint32` from the front of a stream. -/
def readU32LE : List Nat → Option (Nat × List Nat)
  | b0 :: b1 :: b2 :: b3 :: r =>
      some (b0 + 256 * b1 + 65536 * b2 + 16777216 * b3, r)
  | _ => none

/-- Read a little-endian `uint64` from the front of a stream. -/
def readU64LE : List Nat → Option (Nat × List Nat)
  | b0 :: b1 :: b2 :: b3 :: b4 :: b5 :: b6 :: b7 :: r =>
      some (b0 + 256 * b1 + 65536 * b2 + 16777216 * b3 +
            4294967296 * b4 + 1099511627776 * b5 +
            281474976710656 * b6 + 72057594037927936 * b7, r)
  | _ => none

/-- Read exactly `n` bytes (`io.ReadFull` into a buffer of size `n`). -/
def readBytesN (n : Nat) (l : List Nat) : Option (List Nat × List Nat) :=
  if n ≤ l.length then some (l.take n, l.drop n) else none

/-- Little-endian `uint16` encoding, for constructing concrete streams. -/
def encodeU16 (v : Nat) : List Nat := [v % 256, v / 256 % 256]

/-- Little-endian `uint32` encoding. -/
def encodeU32 (v : Nat) : List Nat :=
  [v % 256, v / 256 % 256, v / 65536 % 256, v / 16777216 % 256]

/-- Little-endian `uint64` encoding. -/
def encodeU64 (v : Nat) : List Nat :=
  [v % 256, v / 256 % 256, v / 65536 % 256, v / 16777216 % 256,
   v / 4294967296 % 256, v / 1099511627776 % 256,
   v / 281474976710656 % 256, v / 72057594037927936 % 256]

/-- Bytes of a Go string literal (Go strings are byte strings; all the
literals the source compares against are ASCII). -/
def strBytes (s : String) : List Nat := s.data.map Char.toNat

/-- `var surr1 uint16 = 0xd800` (src/efi.go). -/
def surr1 : Nat := 0xd800

/-- `var surr2 uint16 = 0xdc00` (src/efi.go). -/
def surr2 : Nat := 0xdc00

/-- `var surr3 uint16 = 0xe000` (src/efi.go). -/
def surr3 : Nat := 0xe000

/-- Read a little-endian `uint16` at byte position `p` of a seekable
stream (the two bytes `d[p]`, `d[p+1]`). -/
def readU16At (d : List Nat) (p : Nat) : Option Nat :=
  match d[p]?, d[p + 1]? with
  | some b0, some b1 => some (b0 + 256 * b1)
  | _, _ => none

/-- `extractUTF16Buffer` (src/efi.go lines 20-47), on a byte list with a
cursor.  For each of the `nchars` requested characters it reads one code
unit `c`; if `c` is a high surrogate it reads a second unit `c2`; when
`c2` is not a low surrogate it seeks back by one byte
(`stream.Seek(-1, io.SeekCurrent)`) and emits only `c`; when `c2` is a
low surrogate it emits both.  Returns the collected code units and the
final cursor position. -/
def extractUTF16Buffer (d : List Nat) : Nat → Nat → Option (List Nat × Nat)
  | 0, p => some ([], p)
  | Nat.succ n, p =>
    match readU16At d p with
    | none => none
    | some c =>
      if surr1 ≤ c ∧ c < surr2 then
        match readU16At d (p + 2) with
        | none => none
        | some c2 =>
          if c2 < surr2 ∨ surr3 ≤ c2 then
            match extractUTF16Buffer d n (p + 3) with
            | none => none
            | some (out, q) => some (c :: out, q)
          else
            match extractUTF16Buffer d n (p + 4) with
            | none => none
            | some (out, q) => some (c :: c2 :: out, q)
      else
        match extractUTF16Buffer d n (p + 2) with
        | none => none
        | some (out, q) => some (c :: out, q)

/-- One entry of the spec-id event's algorithm-size table
(`EFISpecIdEventAlgorithmSize`, src/eventdata.go lines 20-23). -/
structure EFISpecIdEventAlgorithmSize where
  algorithmId : Nat
  digestSize : Nat
deriving DecidableEq

/-- The `Spec` tag set by the spec-id sub-parsers (`SpecPCClient`,
`SpecEFI_1_2`, `SpecEFI_2`; the type itself is defined in repository code
not under src/). `specUnknown` is the Go zero value a `SpecIdEventData`
carries before a sub-parser assigns `eventData.Spec`. -/
inductive Spec where
  | specUnknown
  | specPCClient
  | specEFI_1_2
  | specEFI_2
deriving DecidableEq

/-- `SpecIdEventData` (src/eventdata.go lines 25-35). -/
structure SpecIdEventData where
  data : List Nat
  spec : Spec
  platformClass : Nat
  specVersionMinor : Nat
  specVersionMajor : Nat
  specErrata : Nat
  uintnSize : Nat
  digestSizes : List EFISpecIdEventAlgorithmSize
  vendorInfo : List Nat
deriving DecidableEq

/-- Modelled from the spec: the algorithm registry `knownAlgorithms`
(defined in repository code not under src/) maps each known 16-bit
algorithm id to its digest size in bytes: SHA-1 = 0x0004 -> 20,
SHA-256 = 0x000B -> 32, SHA-384 = 0x000C -> 48, SHA-512 = 0x000D -> 64,
SM3-256 = 0x0012 -> 32; unknown ids are absent. -/
def knownAlgorithms : Nat → Option Nat
  | 0x0004 => some 20
  | 0x000B => some 32
  | 0x000C => some 48
  | 0x000D => some 64
  | 0x0012 => some 32
  | _ => none

/-- The errors of `parseEFI_2_SpecIdEvent` in src/efi.go: `truncated`
stands for `wrapSpecIdEventReadError` of a stream read failure (the
wrapper lives in repository code not under src/); the two `invalid...`
constructors are the two `InvalidSpecIdEventError` values the function
builds (src/efi.go lines 127-129 and 146-151), carrying the data the Go
code formats into the message. -/
inductive SpecIdError where
  | truncated
  | invalidZeroAlgorithms
  | invalidDigestSize (algorithmId got expected : Nat)
deriving DecidableEq

/-- Whether a `SpecIdError` is an `InvalidSpecIdEventError` (as opposed
to a wrapped read error). -/
def SpecIdError.isInvalidSpecIdEvent : SpecIdError → Bool
  | .truncated => false
  | .invalidZeroAlgorithms => true
  | .invalidDigestSize _ _ _ => true

namespace Efi

/-- The digest-size table loop of `parseEFI_2_SpecIdEvent`
(src/efi.go lines 131-153): read `algorithmId` and `digestSize` for each
of the declared entries; when `knownAlgorithms` knows the id and its size
disagrees with the declared one, fail with `InvalidSpecIdEventError`;
unknown ids are kept with their declared size. -/
def readAlgSizes : Nat → List Nat →
    Except SpecIdError (List EFISpecIdEventAlgorithmSize × List Nat)
  | 0, l => .ok ([], l)
  | Nat.succ n, l =>
    match readU16LE l with
    | none => .error .truncated
    | some (algorithmId, l) =>
      match readU16LE l with
      | none => .error .truncated
      | some (digestSize, l) =>
        match knownAlgorithms algorithmId with
        | some knownSize =>
          if knownSize = digestSize then
            match readAlgSizes n l with
            | .error e => .error e
            | .ok (rest, l) => .ok (⟨algorithmId, digestSize⟩ :: rest, l)
          else .error (.invalidDigestSize algorithmId digestSize knownSize)
        | none =>
          match readAlgSizes n l with
          | .error e => .error e
          | .ok (rest, l) => .ok (⟨algorithmId, digestSize⟩ :: rest, l)

/-- `parseEFI_2_SpecIdEvent` (src/efi.go lines 113-168).  `eventData`
holds the fields its caller already filled (signature, platformClass,
version bytes); the stream starts at `uintnSize`.  Rejects
`numberOfAlgorithms < 1` with `InvalidSpecIdEventError` before reading
the table. -/
def parseEFI_2_SpecIdEvent (eventData : SpecIdEventData) (l : List Nat) :
    Except SpecIdError (SpecIdEventData × List Nat) :=
  match readU8 l with
  | none => .error .truncated
  | some (uintnSize, l) =>
    match readU32LE l with
    | none => .error .truncated
    | some (numberOfAlgorithms, l) =>
      if numberOfAlgorithms < 1 then .error .invalidZeroAlgorithms
      else
        match readAlgSizes numberOfAlgorithms l with
        | .error e => .error e
        | .ok (digestSizes, l) =>
          match readU8 l with
          | none => .error .truncated
          | some (vendorInfoSize, l) =>
            match readBytesN vendorInfoSize l with
            | none => .error .truncated
            | some (vendorInfo, l) =>
              .ok ({ eventData with
                      spec := .specEFI_2
                      uintnSize := uintnSize
                      digestSizes := digestSizes
                      vendorInfo := vendorInfo }, l)

end Efi

namespace Ev

/-- The digest-size table loop of `parseEFI_2_SpecIdEvent` in
src/eventdata.go (lines 131-143): reads the entries with no registry
check of any kind. -/
def readAlgSizes : Nat → List Nat →
    Option (List EFISpecIdEventAlgorithmSize × List Nat)
  | 0, l => some ([], l)
  | Nat.succ n, l =>
    match readU16LE l with
    | none => none
    | some (algorithmId, l) =>
      match readU16LE l with
      | none => none
      | some (digestSize, l) =>
        match readAlgSizes n l with
        | none => none
        | some (rest, l) => some (⟨algorithmId, digestSize⟩ :: rest, l)

/-- `parseEFI_2_SpecIdEvent` (src/eventdata.go lines 117-158).  Unlike
the src/efi.go revision it has no `numberOfAlgorithms < 1` check and no
registry check: any table, including an empty one, is accepted. -/
def parseEFI_2_SpecIdEvent (eventData : SpecIdEventData) (l : List Nat) :
    Option (SpecIdEventData × List Nat) :=
  match readU8 l with
  | none => none
  | some (uintnSize, l) =>
    match readU32LE l with
    | none => none
    | some (numberOfAlgorithms, l) =>
      match readAlgSizes numberOfAlgorithms l with
      | none => none
      | some (digestSizes, l) =>
        match readU8 l with
        | none => none
        | some (vendorInfoSize, l) =>
          match readBytesN vendorInfoSize l with
          | none => none
          | some (vendorInfo, l) =>
            some ({ eventData with
                     spec := .specEFI_2
                     uintnSize := uintnSize
                     digestSizes := digestSizes
                     vendorInfo := vendorInfo }, l)

/-- `parsePCClientSpecIdEvent` (src/eventdata.go lines 66-88). -/
def parsePCClientSpecIdEvent (eventData : SpecIdEventData) (l : List Nat) :
    Option (SpecIdEventData × List Nat) :=
  match readU8 l with
  | none => none
  | some (_reserved, l) =>
    match readU8 l with
    | none => none
    | some (vendorInfoSize, l) =>
      match readBytesN vendorInfoSize l with
      | none => none
      | some (vendorInfo, l) =>
        some ({ eventData with spec := .specPCClient, vendorInfo := vendorInfo }, l)

/-- `parseEFI_1_2_SpecIdEvent` (src/eventdata.go lines 92-113). -/
def parseEFI_1_2_SpecIdEvent (eventData : SpecIdEventData) (l : List Nat) :
    Option (SpecIdEventData × List Nat) :=
  match readU8 l with
  | none => none
  | some (uintnSize, l) =>
    match readU8 l with
    | none => none
    | some (vendorInfoSize, l) =>
      match readBytesN vendorInfoSize l with
      | none => none
      | some (vendorInfo, l) =>
        some ({ eventData with
                 spec := .specEFI_1_2
                 uintnSize := uintnSize
                 vendorInfo := vendorInfo }, l)

end Ev

/-- Modelled from the spec: the `EventType` tags (the constants are
defined in repository code not under src/; the spec, section 3, lists
the types and src/eventdata.go switches over them by name).  `other`
carries any remaining 32-bit tag; the numeric values are irrelevant to
the dispatch, which compares tags for equality only. -/
inductive EventType where
  | noAction
  | separator
  | action
  | ipl
  | eventTag
  | sCRTMVersion
  | platformConfigFlags
  | tableOfDevices
  | nonhostInfo
  | omitBootDeviceEvents
  | efiVariableDriverConfig
  | efiVariableBoot
  | efiVariableAuthority
  | efiBootServicesApplication
  | efiBootServicesDriver
  | efiRuntimeServicesDriver
  | efiGPTEvent
  | efiAction
  | other (v : Nat)
deriving DecidableEq

/-- Modelled from the spec: the two `SeparatorEventType` constants
(`SeparatorEventTypeNormal`, `SeparatorEventTypeError`; defined in
repository code not under src/ -- spec section 4.3 gives the
`kind = Normal | Error` split). -/
inductive SeparatorEventType where
  | normal
  | error
deriving DecidableEq

/-- A device-path node (`efiDevicePathNode` in src/efi.go /
`efiGenericDevicePathNode` in src/eventdata.go); the intrusive `next`
pointer becomes the list structure of the decoded path. -/
structure EFIDevicePathNode where
  t : Nat
  subType : Nat
  data : List Nat
deriving DecidableEq

/-- `efiDevicePathNodeEoH = 0x7f` (src/efi.go line 317). -/
def efiDevicePathNodeEoH : Nat := 0x7f

namespace Ev

/-- `EFIGUID` of src/eventdata.go (lines 405-410): three little-endian
groups and a raw 8-byte tail. -/
structure EFIGUID where
  Data1 : Nat
  Data2 : Nat
  Data3 : Nat
  Data4 : List Nat
deriving DecidableEq

/-- `readEFIGUID` (src/eventdata.go lines 416-430), little-endian order. -/
def readEFIGUID (l : List Nat) : Option (EFIGUID × List Nat) :=
  match readU32LE l with
  | none => none
  | some (d1, l) =>
    match readU16LE l with
    | none => none
    | some (d2, l) =>
      match readU16LE l with
      | none => none
      | some (d3, l) =>
        match readBytesN 8 l with
        | none => none
        | some (d4, l) => some (⟨d1, d2, d3, d4⟩, l)

end Ev

namespace Efi

/-- `EFIGUID` of src/efi.go (lines 49-55): four integer components and
a 6-byte tail. -/
structure EFIGUID where
  A : Nat
  B : Nat
  C : Nat
  D : Nat
  E : List Nat
deriving DecidableEq

/-- `decodeEFIGUID` (src/efi.go lines 61-79): `A`, `B`, `C` are read
little-endian but `D` is read big-endian. -/
def decodeEFIGUID (l : List Nat) : Option (EFIGUID × List Nat) :=
  match readU32LE l with
  | none => none
  | some (a, l) =>
    match readU16LE l with
    | none => none
    | some (b, l) =>
      match readU16LE l with
      | none => none
      | some (c, l) =>
        match readU16BE l with
        | none => none
        | some (d, l) =>
          match readBytesN 6 l with
          | none => none
          | some (e, l) => some (⟨a, b, c, d, e⟩, l)

end Efi

/-- The ASCII code of one lowercase hex digit, as Go's `%x` verb prints
it. -/
def hexDigitCode (n : Nat) : Nat := if n < 10 then 48 + n else 87 + n

/-- `w` lowercase hex digits of `n`, most significant first: Go's
`%0wx` applied to an integer. -/
def hexPad : Nat → Nat → List Nat
  | 0, _ => []
  | Nat.succ w, n => hexPad w (n / 16) ++ [hexDigitCode (n % 16)]

/-- Go's `%x` applied to a byte slice: two hex digits per byte, in byte
order. -/
def hexBytes (l : List Nat) : List Nat := (l.map (hexPad 2)).flatten

/-- The `String()` method of src/efi.go's `EFIGUID` (line 57-59):
`{%08x-%04x-%04x-%04x-%012x}` over `A, B, C, D, E`, as ASCII codes
(123 and 125 are the braces, 45 the dash). -/
def Efi.EFIGUID.display (g : Efi.EFIGUID) : List Nat :=
  [123] ++ hexPad 8 g.A ++ [45] ++ hexPad 4 g.B ++ [45] ++ hexPad 4 g.C ++
  [45] ++ hexPad 4 g.D ++ [45] ++ hexBytes g.E ++ [125]

/-- The `String()` method of src/eventdata.go's `EFIGUID` (lines
412-414): `{%08x-%04x-%04x-%04x-%012x}` over
`Data1, Data2, Data3, Data4[0:2], Data4[2:8]`, as ASCII codes. -/
def Ev.EFIGUID.display (g : Ev.EFIGUID) : List Nat :=
  [123] ++ hexPad 8 g.Data1 ++ [45] ++ hexPad 4 g.Data2 ++ [45] ++
  hexPad 4 g.Data3 ++ [45] ++ hexBytes (g.Data4.take 2) ++ [45] ++
  hexBytes (g.Data4.drop 2) ++ [125]

namespace Efi

/-- `readDevicePathNode` (src/efi.go lines 571-597): reads `type`,
`subType` and the 16-bit `length`, rejects `length < 4`, then reads
`length - 4` data bytes. -/
def readDevicePathNode (l : List Nat) : Option (EFIDevicePathNode × List Nat) :=
  match readU8 l with
  | none => none
  | some (t, l) =>
    match readU8 l with
    | none => none
    | some (subType, l) =>
      match readU16LE l with
      | none => none
      | some (length, l) =>
        if length < 4 then none
        else
          match readBytesN (length - 4) l with
          | none => none
          | some (data, l) => some (⟨t, subType, data⟩, l)

/-- The node loop of `readDevicePath` (src/efi.go lines 614-637) with
explicit fuel (each successful step consumes at least four bytes, so
`data.length + 1` steps never run out): a failed node read makes the
whole walk fail, an End-of-Hardware node ends it. -/
def readDevicePathAux : Nat → List Nat → Option (List EFIDevicePathNode)
  | 0, _ => none
  | Nat.succ fuel, l =>
    match readDevicePathNode l with
    | none => none
    | some (node, rest) =>
      if node.t = efiDevicePathNodeEoH then some []
      else
        match readDevicePathAux fuel rest with
        | none => none
        | some nodes => some (node :: nodes)

/-- `readDevicePath` (src/efi.go lines 614-637).  When any node read
fails the Go code returns `&EFIDevicePath{}` -- an *empty* path, not an
error -- discarding the nodes walked so far. -/
def readDevicePath (data : List Nat) : List EFIDevicePathNode :=
  (readDevicePathAux (data.length + 1) data).getD []

end Efi

namespace Ev

/-- `readDevicePathNode` (src/eventdata.go lines 561-588): unlike the
src/efi.go revision there is no `length < 4` check; the Go code runs
`length -= 4` on the `uint16`, which wraps modulo 2^16, and then reads
that many data bytes when the result is positive. -/
def readDevicePathNode (l : List Nat) : Option (EFIDevicePathNode × List Nat) :=
  match readU8 l with
  | none => none
  | some (t, l) =>
    match readU8 l with
    | none => none
    | some (subType, l) =>
      match readU16LE l with
      | none => none
      | some (length, l) =>
        let lengthSub4 := (length + 65532) % 65536
        if lengthSub4 > 0 then
          match readBytesN lengthSub4 l with
          | none => none
          | some (data, l) => some (⟨t, subType, data⟩, l)
        else some (⟨t, subType, []⟩, l)

/-- The node loop of `readDevicePath` (src/eventdata.go lines 605-629)
with explicit fuel (each successful step consumes at least four bytes,
so `data.length + 1` steps never run out). -/
def readDevicePathAux : Nat → List Nat → Option (List EFIDevicePathNode)
  | 0, _ => none
  | Nat.succ fuel, l =>
    match readDevicePathNode l with
    | none => none
    | some (node, rest) =>
      if node.t = efiDevicePathNodeEoH then some []
      else
        match readDevicePathAux fuel rest with
        | none => none
        | some nodes => some (node :: nodes)

/-- `readDevicePath` (src/eventdata.go lines 605-629): a failed node
read makes the whole decode return `nil` (here `none`); an
End-of-Hardware node terminates it successfully. -/
def readDevicePath (data : List Nat) : Option (List EFIDevicePathNode) :=
  readDevicePathAux (data.length + 1) data

end Ev

/-- Modelled from the spec: `decodeUTF16ToString` (called by
src/eventdata.go's `makeEventDataEFIVariable`, defined in repository
code not under src/).  Per spec section 4.1 it consumes code units until
`n` characters are decoded: a high surrogate followed by a valid low
surrogate is one character; an invalid second unit yields a replacement
character (0xfffd) for the high surrogate alone and pushes one byte
back.  Returns the decoded scalar values and the remaining stream. -/
def decodeUTF16ToString : Nat → List Nat → Option (List Nat × List Nat)
  | 0, l => some ([], l)
  | Nat.succ n, l =>
    match readU16LE l with
    | none => none
    | some (c, l1) =>
      if surr1 ≤ c ∧ c < surr2 then
        match readU16LE l1 with
        | none => none
        | some (c2, l2) =>
          if surr2 ≤ c2 ∧ c2 < surr3 then
            match decodeUTF16ToString n l2 with
            | none => none
            | some (out, r) =>
              some ((65536 + (c - surr1) * 1024 + (c2 - surr2)) :: out, r)
          else
            match decodeUTF16ToString n (l1.drop 1) with
            | none => none
            | some (out, r) => some (65533 :: out, r)
      else
        match decodeUTF16ToString n l1 with
        | none => none
        | some (out, r) => some (c :: out, r)

/-- The `EventData` interface of src/eventdata.go as a closed sum of the
concrete implementations the decoders build: `SpecIdEventData`,
`SeparatorEventData`, `AsciiStringEventData`, `opaqueEventData`,
`KernelCmdlineEventData`, `GrubCmdEventData`, `EFIVariableEventData`
and `EFIImageLoadEventData`. -/
inductive EventData where
  | specIdEvent (e : SpecIdEventData)
  | separator (data : List Nat) (type : SeparatorEventType)
  | asciiString (data : List Nat) (informational : Bool)
  | opaqueEventData (data : List Nat) (informational : Bool)
  | kernelCmdline (data : List Nat) (cmdline : List Nat)
  | grubCmd (data : List Nat) (cmd : List Nat)
  | efiVariable (data : List Nat) (variableName : Ev.EFIGUID)
      (unicodeName : List Nat) (variableData : List Nat)
  | efiImageLoad (data : List Nat)
      (locationInMemory lengthInMemory linkTimeAddress : Nat)
      (path : List EFIDevicePathNode)
deriving DecidableEq

/-- The `RawBytes()` view: every implementation returns its stored
`data` field (src/eventdata.go lines 56-58, 239-241, 284-286, 304-306,
342-344, 362-364, 444-446, 645-647). -/
def EventData.RawBytes : EventData → List Nat
  | .specIdEvent e => e.data
  | .separator data _ => data
  | .asciiString data _ => data
  | .opaqueEventData data _ => data
  | .kernelCmdline data _ => data
  | .grubCmd data _ => data
  | .efiVariable data _ _ _ => data
  | .efiImageLoad data _ _ _ _ => data

/-- The `MeasuredBytes()` view (`nil` becomes `none`):
spec-id events and image loads are never self-measured; a separator is
measured only when `Normal`; ASCII strings and opaque data only when not
informational; kernel command lines and GRUB commands expose the
stripped command bytes; variable events expose the whole payload
(src/eventdata.go lines 60-62, 243-248, 288-293, 308-313, 346-351,
366-371, 448-450, 649-651). -/
def EventData.MeasuredBytes : EventData → Option (List Nat)
  | .specIdEvent _ => none
  | .separator data type => if type = .normal then some data else none
  | .asciiString data informational => if informational then none else some data
  | .opaqueEventData data informational => if informational then none else some data
  | .kernelCmdline _ cmdline => some cmdline
  | .grubCmd _ cmd => some cmd
  | .efiVariable data _ _ _ => some data
  | .efiImageLoad _ _ _ _ _ => none

/-- `validNormalSeparatorValues = {0, math.MaxUint32}`
(src/eventdata.go lines 223-225). -/
def validNormalSeparatorValues : List Nat := [0, 4294967295]

/-- `order.Uint32(data)` on the first four bytes, little-endian (the
decoders are called with `binary.LittleEndian`). -/
def leUint32 (data : List Nat) : Nat :=
  data.getD 0 0 + 256 * data.getD 1 0 + 65536 * data.getD 2 0 +
  16777216 * data.getD 3 0

/-- `kernelCmdlinePrefix = "kernel_cmdline: "` (src/eventdata.go line 329). -/
def kernelCmdlinePfx : List Nat := strBytes "kernel_cmdline: "

/-- `grubCmdPrefix = "grub_cmd: "` (src/eventdata.go line 330). -/
def grubCmdPfx : List Nat := strBytes "grub_cmd: "

/-- `strings.TrimSuffix(str, "\x00")`: remove one trailing NUL byte when
present. -/
def trimSuffixNull (l : List Nat) : List Nat :=
  if l.getLast? = some 0 then l.dropLast else l

namespace Ev

/-- `parseSpecIdEvent` (src/eventdata.go lines 166-221): reads the
16-byte signature, `platformClass`, the three version bytes, then
dispatches on the signature string; an unrecognised signature yields
`nil`. -/
def parseSpecIdEvent (data : List Nat) : Option EventData :=
  match readBytesN 16 data with
  | none => none
  | some (sigRaw, l) =>
    match readU32LE l with
    | none => none
    | some (platformClass, l) =>
      match readU8 l with
      | none => none
      | some (specVersionMinor, l) =>
        match readU8 l with
        | none => none
        | some (specVersionMajor, l) =>
          match readU8 l with
          | none => none
          | some (specErrata, l) =>
            -- the Go code builds one `eventData` value and hands it to
            -- the signature-selected sub-parser; the record is spelled
            -- out per branch here
            if sigRaw = strBytes "Spec ID Event00\x00" then
              (parsePCClientSpecIdEvent
                { data := data, spec := .specUnknown
                  platformClass := platformClass
                  specVersionMinor := specVersionMinor
                  specVersionMajor := specVersionMajor
                  specErrata := specErrata, uintnSize := 0
                  digestSizes := [], vendorInfo := [] } l).map
                (fun r => .specIdEvent r.1)
            else if sigRaw = strBytes "Spec ID Event02\x00" then
              (parseEFI_1_2_SpecIdEvent
                { data := data, spec := .specUnknown
                  platformClass := platformClass
                  specVersionMinor := specVersionMinor
                  specVersionMajor := specVersionMajor
                  specErrata := specErrata, uintnSize := 0
                  digestSizes := [], vendorInfo := [] } l).map
                (fun r => .specIdEvent r.1)
            else if sigRaw = strBytes "Spec ID Event03\x00" then
              (parseEFI_2_SpecIdEvent
                { data := data, spec := .specUnknown
                  platformClass := platformClass
                  specVersionMinor := specVersionMinor
                  specVersionMajor := specVersionMajor
                  specErrata := specErrata, uintnSize := 0
                  digestSizes := [], vendorInfo := [] } l).map
                (fun r => .specIdEvent r.1)
            else none

/-- `makeEventDataNoAction` (src/eventdata.go lines 319-326): only
PCR 0 carries a spec-id event; other PCRs yield `nil`. -/
def makeEventDataNoAction (pcrIndex : Nat) (data : List Nat) : Option EventData :=
  match pcrIndex with
  | 0 => parseSpecIdEvent data
  | _ => none

/-- `makeEventDataSeparator` (src/eventdata.go lines 255-271): exactly
four bytes; the value selects `Normal` (member of
`validNormalSeparatorValues`) or `Error`. -/
def makeEventDataSeparator (data : List Nat) : Option EventData :=
  if data.length ≠ 4 then none
  else
    some (.separator data
      (if leUint32 data ∈ validNormalSeparatorValues then
         SeparatorEventType.normal
       else SeparatorEventType.error))

/-- `makeEventDataAction` (src/eventdata.go lines 401-403). -/
def makeEventDataAction (data : List Nat) : EventData :=
  .asciiString data false

/-- `makeEventDataIPL` (src/eventdata.go lines 373-397): on PCR 8, a
`"kernel_cmdline: "` prefix yields `KernelCmdlineEventData` (prefix
stripped, one trailing NUL trimmed), a `"grub_cmd: "` prefix yields
`GrubCmdEventData` likewise, anything else `nil`; on PCR 9, an
informational ASCII string; other PCRs `nil`. -/
def makeEventDataIPL (pcrIndex : Nat) (data : List Nat) : Option EventData :=
  match pcrIndex with
  | 8 =>
    if kernelCmdlinePfx.isPrefixOf data then
      some (.kernelCmdline data
        (trimSuffixNull (data.drop kernelCmdlinePfx.length)))
    else if grubCmdPfx.isPrefixOf data then
      some (.grubCmd data (trimSuffixNull (data.drop grubCmdPfx.length)))
    else none
  | 9 => some (.asciiString data true)
  | _ => none

/-- `makeEventDataEFIVariable` (src/eventdata.go lines 452-484). -/
def makeEventDataEFIVariable (data : List Nat) : Option EventData :=
  match readEFIGUID data with
  | none => none
  | some (guid, l) =>
    match readU64LE l with
    | none => none
    | some (unicodeNameLength, l) =>
      match readU64LE l with
      | none => none
      | some (variableDataLength, l) =>
        match decodeUTF16ToString unicodeNameLength l with
        | none => none
        | some (unicodeName, l) =>
          match readBytesN variableDataLength l with
          | none => none
          | some (variableData, _) =>
            some (.efiVariable data guid unicodeName variableData)

/-- `makeEventDataImageLoad` (src/eventdata.go lines 653-692): three
`uint64` image fields, the device-path length, the device-path buffer,
and the decoded path; a `nil` path makes the whole decode `nil`. -/
def makeEventDataImageLoad (data : List Nat) : Option EventData :=
  match readU64LE data with
  | none => none
  | some (locationInMemory, l) =>
    match readU64LE l with
    | none => none
    | some (lengthInMemory, l) =>
      match readU64LE l with
      | none => none
      | some (linkTimeAddress, l) =>
        match readU64LE l with
        | none => none
        | some (devicePathLength, l) =>
          match readBytesN devicePathLength l with
          | none => none
          | some (devicePathBuf, _) =>
            match readDevicePath devicePathBuf with
            | none => none
            | some path =>
              some (.efiImageLoad data locationInMemory lengthInMemory
                linkTimeAddress path)

/-- `makeEventDataImpl` (src/eventdata.go lines 694-712): the
type-keyed dispatch over the sub-decoders. -/
def makeEventDataImpl (pcrIndex : Nat) (eventType : EventType)
    (data : List Nat) : Option EventData :=
  match eventType with
  | .noAction => makeEventDataNoAction pcrIndex data
  | .separator => makeEventDataSeparator data
  | .action => some (makeEventDataAction data)
  | .efiAction => some (makeEventDataAction data)
  | .ipl => makeEventDataIPL pcrIndex data
  | .efiVariableDriverConfig => makeEventDataEFIVariable data
  | .efiVariableBoot => makeEventDataEFIVariable data
  | .efiVariableAuthority => makeEventDataEFIVariable data
  | .efiBootServicesApplication => makeEventDataImageLoad data
  | .efiBootServicesDriver => makeEventDataImageLoad data
  | .efiRuntimeServicesDriver => makeEventDataImageLoad data
  | _ => none

/-- `makeOpaqueEventData` (src/eventdata.go lines 714-722): the listed
types are opaque but measured (`informational: false`); every other
type is informational. -/
def makeOpaqueEventData (eventType : EventType) (data : List Nat) : EventData :=
  match eventType with
  | .eventTag => .opaqueEventData data false
  | .sCRTMVersion => .opaqueEventData data false
  | .platformConfigFlags => .opaqueEventData data false
  | .tableOfDevices => .opaqueEventData data false
  | .nonhostInfo => .opaqueEventData data false
  | .omitBootDeviceEvents => .opaqueEventData data false
  | .efiGPTEvent => .opaqueEventData data false
  | _ => .opaqueEventData data true

/-- `makeEventData` (src/eventdata.go lines 724-729): the sub-decoder's
result when it produced one, else the opaque fallback -- never `nil`. -/
def makeEventData (pcrIndex : Nat) (eventType : EventType)
    (data : List Nat) : EventData :=
  (makeEventDataImpl pcrIndex eventType data).getD
    (makeOpaqueEventData eventType data)

end Ev

/-- Modelled from the spec: the validation layer (repository code not
under src/) reports `MalformedEvent` for an enclosing image-load event
exactly when the image-load sub-decoder fails to produce a typed event
(spec section 8, item 8: a device path without its End-of-Hardware
terminator "is reported as `MalformedEvent` for the enclosing
image-load event; the event is preserved as opaque"). -/
def imageLoadMalformed (data : List Nat) : Bool :=
  (Ev.makeEventDataImageLoad data).isNone

/-- On-disk bytes of one algorithm-size table entry: `algorithmId` and
`digestSize` as little-endian `uint16`. -/
def encodeAlgSize (e : EFISpecIdEventAlgorithmSize) : List Nat :=
  encodeU16 e.algorithmId ++ encodeU16 e.digestSize

/-- On-disk bytes of an algorithm-size table. -/
def encodeAlgSizes (es : List EFISpecIdEventAlgorithmSize) : List Nat :=
  (es.map encodeAlgSize).flatten

/-- On-disk bytes of one device-path node: `type`, `subType`, the
16-bit length (data length plus the 4 header bytes, little-endian), and
the data. -/
def encodeDevicePathNode (n : EFIDevicePathNode) : List Nat :=
  n.t :: n.subType :: (encodeU16 (n.data.length + 4) ++ n.data)

/-- On-disk bytes of a sequence of device-path nodes. -/
def encodeDevicePathNodes (ns : List EFIDevicePathNode) : List Nat :=
  (ns.map encodeDevicePathNode).flatten

/-- A complete `"Spec ID Event03\x00"` payload that declares
`numberOfAlgorithms = 0`: signature, `platformClass = 0`, version
minor 0 / major 2 / errata 0, `uintnSize = 2`, `numberOfAlgorithms = 0`,
`vendorInfoSize = 0`. -/
def zeroAlgPayload : List Nat :=
  strBytes "Spec ID Event03\x00" ++
  [0, 0, 0, 0] ++ [0] ++ [2] ++ [0] ++ [2] ++ [0, 0, 0, 0] ++ [0]

/-! ## Helper lemmas -/

theorem readBytesN_exact (l r : List Nat) :
    readBytesN l.length (l ++ r) = some (l, r) := by
  simp [readBytesN, List.take_left, List.drop_left]

theorem readU16LE_encode (v : Nat) (r : List Nat) (h : v < 65536) :
    readU16LE (encodeU16 v ++ r) = some (v, r) := by
  simp only [encodeU16, List.cons_append, List.nil_append, readU16LE]
  have hv : v % 256 + 256 * (v / 256 % 256) = v := by omega
  rw [hv]

theorem readU64LE_encode (v : Nat) (r : List Nat) (h : v < 18446744073709551616) :
    readU64LE (encodeU64 v ++ r) = some (v, r) := by
  simp only [encodeU64, List.cons_append, List.nil_append, readU64LE]
  have hv : v % 256 + 256 * (v / 256 % 256) + 65536 * (v / 65536 % 256) +
      16777216 * (v / 16777216 % 256) + 4294967296 * (v / 4294967296 % 256) +
      1099511627776 * (v / 1099511627776 % 256) +
      281474976710656 * (v / 281474976710656 % 256) +
      72057594037927936 * (v / 72057594037927936 % 256) = v := by omega
  rw [hv]

/-! ## C1: UTF-16 character extraction -/

/-- C1.  For every stream, cursor position and remaining character
count, one character-extraction step of `extractUTF16Buffer` behaves as
claimed: a non-high-surrogate unit `c` is emitted alone and the cursor
advances 2 bytes; a high surrogate followed by a low surrogate `c2`
emits the pair (one requested character) and advances 4 bytes; a high
surrogate followed by a unit that is not a low surrogate emits only `c`
and the cursor ends at `p + 2 + 2 - 1` -- the two units were read (4
bytes) and the cursor was rewound by exactly 1 byte, so the next
character extraction starts at the second byte of `c2`. -/
theorem extractUTF16Buffer_char_consumption (d : List Nat) (p n c : Nat)
    (hc : readU16At d p = some c) :
    (¬ (surr1 ≤ c ∧ c < surr2) →
        extractUTF16Buffer d (n + 1) p
          = Option.map (fun r => (c :: r.1, r.2)) (extractUTF16Buffer d n (p + 2)))
    ∧ (∀ c2, (surr1 ≤ c ∧ c < surr2) → readU16At d (p + 2) = some c2 →
        (surr2 ≤ c2 ∧ c2 < surr3 →
            extractUTF16Buffer d (n + 1) p
              = Option.map (fun r => (c :: c2 :: r.1, r.2))
                  (extractUTF16Buffer d n (p + 4)))
        ∧ (¬ (surr2 ≤ c2 ∧ c2 < surr3) →
            extractUTF16Buffer d (n + 1) p
              = Option.map (fun r => (c :: r.1, r.2))
                  (extractUTF16Buffer d n (p + 2 + 2 - 1)))) := by
  refine ⟨?_, ?_⟩
  · intro hni
    simp only [extractUTF16Buffer, hc, if_neg hni]
    cases hrec : extractUTF16Buffer d n (p + 2) with
    | none => simp
    | some r => simp
  · intro c2 hhi hc2
    constructor
    · intro hlo
      have hcond : ¬ (c2 < surr2 ∨ surr3 ≤ c2) := by
        simp only [surr2, surr3] at hlo ⊢
        omega
      simp only [extractUTF16Buffer, hc, if_pos hhi, hc2, if_neg hcond]
      cases hrec : extractUTF16Buffer d n (p + 4) with
      | none => simp
      | some r => simp
    · intro hnlo
      have hcond : c2 < surr2 ∨ surr3 ≤ c2 := by
        simp only [surr2, surr3] at hnlo ⊢
        omega
      have hp : p + 2 + 2 - 1 = p + 3 := by omega
      rw [hp]
      simp only [extractUTF16Buffer, hc, if_pos hhi, hc2, if_pos hcond]
      cases hrec : extractUTF16Buffer d n (p + 3) with
      | none => simp
      | some r => simp

/-- Witness for C1: on the stream holding the high surrogate 0xd800
(bytes 0, 216) followed by the unit 0x0041 (bytes 65, 0), extracting
one character emits only 0xd800 and leaves the cursor at byte 3 -- the
second byte of the invalid low surrogate. -/
theorem extractUTF16Buffer_char_consumption_witness :
    extractUTF16Buffer [0, 216, 65, 0] 1 0 = some ([55296], 3) := by
  have h := ((extractUTF16Buffer_char_consumption [0, 216, 65, 0] 0 0 55296
      (by decide)).2 65 (by decide) (by decide)).2 (by decide)
  exact h.trans (by decide)

/-! ## C2: numberOfAlgorithms = 0 -/

/-- C2 (the divergence between the two parsing paths).  The src/efi.go
revision of `parseEFI_2_SpecIdEvent` rejects *every* stream whose
`numberOfAlgorithms` field is zero with `InvalidSpecIdEventError`
("numberOfAlgorithms is zero"); but the src/eventdata.go revision, on
the complete `"Spec ID Event03\x00"` payload `zeroAlgPayload` declaring
zero algorithms, succeeds and returns a `SpecIdEventData` with an empty
`DigestSizes` table -- so the claim that no parsing path accepts
`numberOfAlgorithms == 0` fails on the code. -/
theorem specIdEvent_zeroAlgorithms_paths :
    (∀ (u : Nat) (rest : List Nat) (ed : SpecIdEventData),
        Efi.parseEFI_2_SpecIdEvent ed (u :: 0 :: 0 :: 0 :: 0 :: rest)
          = .error .invalidZeroAlgorithms)
    ∧ Ev.parseSpecIdEvent zeroAlgPayload
        = some (.specIdEvent
            { data := zeroAlgPayload
              spec := .specEFI_2
              platformClass := 0
              specVersionMinor := 0
              specVersionMajor := 2
              specErrata := 0
              uintnSize := 2
              digestSizes := []
              vendorInfo := [] }) := by
  constructor
  · intro u rest ed
    simp [Efi.parseEFI_2_SpecIdEvent, readU8, readU32LE]
  · decide

/-! ## C3: the algorithm-size table against the registry -/

/-- C3.  Reading an algorithm-size table (src/efi.go's
`parseEFI_2_SpecIdEvent` loop): when every entry naming a known
algorithm declares the registry's size, the whole table -- including
entries with unknown algorithm ids, kept with their declared sizes --
is accepted unchanged; when some entry names a known algorithm with a
deviating declared size, the read fails with the
`InvalidSpecIdEventError` reporting an unexpected digest size. -/
theorem readAlgSizes_registry (es : List EFISpecIdEventAlgorithmSize)
    (rest : List Nat)
    (hb : ∀ e ∈ es, e.algorithmId < 65536 ∧ e.digestSize < 65536) :
    ((∀ e ∈ es, ∀ k, knownAlgorithms e.algorithmId = some k → e.digestSize = k) →
        Efi.readAlgSizes es.length (encodeAlgSizes es ++ rest) = .ok (es, rest))
    ∧ ((∃ e ∈ es, ∃ k, knownAlgorithms e.algorithmId = some k ∧ e.digestSize ≠ k) →
        ∃ a g x, Efi.readAlgSizes es.length (encodeAlgSizes es ++ rest)
          = .error (.invalidDigestSize a g x)) := by
  revert hb
  induction es with
  | nil =>
    intro _
    constructor
    · intro _
      simp [encodeAlgSizes, Efi.readAlgSizes]
    · rintro ⟨e, he, _⟩
      simp at he
  | cons e es ih =>
    intro hb
    have hbe := hb e (List.mem_cons_self e es)
    have hbes : ∀ x ∈ es, x.algorithmId < 65536 ∧ x.digestSize < 65536 :=
      fun x hx => hb x (List.mem_cons_of_mem e hx)
    have hstream : encodeAlgSizes (e :: es) ++ rest
        = encodeU16 e.algorithmId ++
          (encodeU16 e.digestSize ++ (encodeAlgSizes es ++ rest)) := by
      simp [encodeAlgSizes, encodeAlgSize]
    constructor
    · intro hgood
      have hgoodes : ∀ x ∈ es, ∀ k, knownAlgorithms x.algorithmId = some k →
          x.digestSize = k :=
        fun x hx => hgood x (List.mem_cons_of_mem e hx)
      rw [hstream]
      show Efi.readAlgSizes (es.length + 1) _ = _
      simp only [Efi.readAlgSizes, readU16LE_encode _ _ hbe.1,
        readU16LE_encode _ _ hbe.2]
      cases hk : knownAlgorithms e.algorithmId with
      | none => simp [(ih hbes).1 hgoodes]
      | some k =>
        have : k = e.digestSize := (hgood e (List.mem_cons_self e es) k hk).symm
        simp [this, (ih hbes).1 hgoodes]
    · rintro ⟨x, hx, k, hk, hne⟩
      rw [hstream]
      show ∃ a g y, Efi.readAlgSizes (es.length + 1) _ = _
      simp only [Efi.readAlgSizes, readU16LE_encode _ _ hbe.1,
        readU16LE_encode _ _ hbe.2]
      rcases List.mem_cons.mp hx with hxe | hxes
      · subst hxe
        rw [hk]
        exact ⟨x.algorithmId, x.digestSize, k, by simp [Ne.symm hne]⟩
      · have htail := (ih hbes).2 ⟨x, hxes, k, hk, hne⟩
        rcases htail with ⟨a, g, y, herr⟩
        cases hk' : knownAlgorithms e.algorithmId with
        | none => exact ⟨a, g, y, by simp [herr]⟩
        | some k' =>
          by_cases hkd : k' = e.digestSize
          · exact ⟨a, g, y, by simp [hkd, herr]⟩
          · exact ⟨e.algorithmId, e.digestSize, k', by simp [hkd]⟩

/-- Witness for C3: a table declaring SHA-256 (0x000b) with size 32 and
the unknown algorithm id 0x1234 with size 7 is accepted as-is; a table
declaring SHA-256 with size 31 is rejected with the
unexpected-digest-size error. -/
theorem readAlgSizes_registry_witness :
    (Efi.readAlgSizes 2 (encodeAlgSizes [⟨11, 32⟩, ⟨4660, 7⟩] ++ [])
        = .ok ([⟨11, 32⟩, ⟨4660, 7⟩], []))
    ∧ (∃ a g x, Efi.readAlgSizes 1 (encodeAlgSizes [⟨11, 31⟩] ++ [])
        = .error (.invalidDigestSize a g x)) := by
  constructor
  · refine (readAlgSizes_registry [⟨11, 32⟩, ⟨4660, 7⟩] [] (by decide)).1 ?_
    intro e he k hk
    fin_cases he <;> simp_all [knownAlgorithms]
  · refine (readAlgSizes_registry [⟨11, 31⟩] [] (by decide)).2 ?_
    exact ⟨⟨11, 31⟩, by simp, 32, by simp [knownAlgorithms], by decide⟩

/-! ## C4: makeEventData is total and preserves the raw bytes -/

theorem Ev.parsePCClientSpecIdEvent_data (ed : SpecIdEventData) (l : List Nat)
    (r : SpecIdEventData × List Nat)
    (h : Ev.parsePCClientSpecIdEvent ed l = some r) : r.1.data = ed.data := by
  unfold Ev.parsePCClientSpecIdEvent at h
  repeat' split at h
  all_goals try (exact Option.noConfusion h)
  all_goals (injection h with h; subst h; rfl)

theorem Ev.parseEFI_1_2_SpecIdEvent_data (ed : SpecIdEventData) (l : List Nat)
    (r : SpecIdEventData × List Nat)
    (h : Ev.parseEFI_1_2_SpecIdEvent ed l = some r) : r.1.data = ed.data := by
  unfold Ev.parseEFI_1_2_SpecIdEvent at h
  repeat' split at h
  all_goals try (exact Option.noConfusion h)
  all_goals (injection h with h; subst h; rfl)

theorem Ev.parseEFI_2_SpecIdEvent_data (ed : SpecIdEventData) (l : List Nat)
    (r : SpecIdEventData × List Nat)
    (h : Ev.parseEFI_2_SpecIdEvent ed l = some r) : r.1.data = ed.data := by
  unfold Ev.parseEFI_2_SpecIdEvent at h
  repeat' split at h
  all_goals try (exact Option.noConfusion h)
  all_goals (injection h with h; subst h; rfl)

theorem Ev.parseSpecIdEvent_RawBytes (data : List Nat) (e : EventData)
    (h : Ev.parseSpecIdEvent data = some e) : e.RawBytes = data := by
  unfold Ev.parseSpecIdEvent at h
  repeat' split at h
  all_goals try (exact Option.noConfusion h)
  · rcases Option.map_eq_some'.mp h with ⟨a, ha, rfl⟩
    simpa [EventData.RawBytes] using Ev.parsePCClientSpecIdEvent_data _ _ _ ha
  · rcases Option.map_eq_some'.mp h with ⟨a, ha, rfl⟩
    simpa [EventData.RawBytes] using Ev.parseEFI_1_2_SpecIdEvent_data _ _ _ ha
  · rcases Option.map_eq_some'.mp h with ⟨a, ha, rfl⟩
    simpa [EventData.RawBytes] using Ev.parseEFI_2_SpecIdEvent_data _ _ _ ha

theorem Ev.makeEventDataNoAction_RawBytes (pcrIndex : Nat) (data : List Nat)
    (e : EventData) (h : Ev.makeEventDataNoAction pcrIndex data = some e) :
    e.RawBytes = data := by
  unfold Ev.makeEventDataNoAction at h
  split at h
  · exact Ev.parseSpecIdEvent_RawBytes data e h
  · exact Option.noConfusion h

theorem Ev.makeEventDataSeparator_RawBytes (data : List Nat) (e : EventData)
    (h : Ev.makeEventDataSeparator data = some e) : e.RawBytes = data := by
  simp only [Ev.makeEventDataSeparator] at h
  split at h
  · exact Option.noConfusion h
  · injection h with h
    subst h
    rfl

theorem Ev.makeEventDataIPL_RawBytes (pcrIndex : Nat) (data : List Nat)
    (e : EventData) (h : Ev.makeEventDataIPL pcrIndex data = some e) :
    e.RawBytes = data := by
  unfold Ev.makeEventDataIPL at h
  repeat' split at h
  all_goals try (exact Option.noConfusion h)
  all_goals (injection h with h; subst h; rfl)

theorem Ev.makeEventDataEFIVariable_RawBytes (data : List Nat) (e : EventData)
    (h : Ev.makeEventDataEFIVariable data = some e) : e.RawBytes = data := by
  unfold Ev.makeEventDataEFIVariable at h
  repeat' split at h
  all_goals try (exact Option.noConfusion h)
  all_goals (injection h with h; subst h; rfl)

theorem Ev.makeEventDataImageLoad_RawBytes (data : List Nat) (e : EventData)
    (h : Ev.makeEventDataImageLoad data = some e) : e.RawBytes = data := by
  unfold Ev.makeEventDataImageLoad at h
  repeat' split at h
  all_goals try (exact Option.noConfusion h)
  all_goals (injection h with h; subst h; rfl)

theorem Ev.makeOpaqueEventData_RawBytes (eventType : EventType) (data : List Nat) :
    (Ev.makeOpaqueEventData eventType data).RawBytes = data := by
  cases eventType <;> rfl

theorem Ev.makeEventDataImpl_RawBytes (pcrIndex : Nat) (eventType : EventType)
    (data : List Nat) (e : EventData)
    (h : Ev.makeEventDataImpl pcrIndex eventType data = some e) :
    e.RawBytes = data := by
  unfold Ev.makeEventDataImpl at h
  cases eventType with
  | noAction => exact Ev.makeEventDataNoAction_RawBytes _ _ _ h
  | separator => exact Ev.makeEventDataSeparator_RawBytes _ _ h
  | action =>
    have h' := Option.some.inj h
    subst h'
    rfl
  | efiAction =>
    have h' := Option.some.inj h
    subst h'
    rfl
  | ipl => exact Ev.makeEventDataIPL_RawBytes _ _ _ h
  | efiVariableDriverConfig => exact Ev.makeEventDataEFIVariable_RawBytes _ _ h
  | efiVariableBoot => exact Ev.makeEventDataEFIVariable_RawBytes _ _ h
  | efiVariableAuthority => exact Ev.makeEventDataEFIVariable_RawBytes _ _ h
  | efiBootServicesApplication => exact Ev.makeEventDataImageLoad_RawBytes _ _ h
  | efiBootServicesDriver => exact Ev.makeEventDataImageLoad_RawBytes _ _ h
  | efiRuntimeServicesDriver => exact Ev.makeEventDataImageLoad_RawBytes _ _ h
  | _ => simp_all

/-- C4.  `makeEventData` is total: for every PCR index, event type and
payload it produces an `EventData` whose `RawBytes()` view is exactly
the input byte string, and whenever the type-specific sub-decoder fails
(`makeEventDataImpl` yields `nil`) the event is kept as the opaque
`EventData` built by `makeOpaqueEventData`, which carries the per-type
informational policy. -/
theorem makeEventData_total_RawBytes (pcrIndex : Nat) (eventType : EventType)
    (data : List Nat) :
    (Ev.makeEventData pcrIndex eventType data).RawBytes = data
    ∧ (Ev.makeEventDataImpl pcrIndex eventType data = none →
        Ev.makeEventData pcrIndex eventType data
          = Ev.makeOpaqueEventData eventType data) := by
  constructor
  · unfold Ev.makeEventData
    cases h : Ev.makeEventDataImpl pcrIndex eventType data with
    | none => simpa using Ev.makeOpaqueEventData_RawBytes eventType data
    | some e =>
      simpa using Ev.makeEventDataImpl_RawBytes pcrIndex eventType data e h
  · intro h
    unfold Ev.makeEventData
    rw [h]
    rfl

/-- Witness for C4 (its second conjunct is conditional): on a separator
event with a 0-byte payload the sub-decoder fails, the event falls back
to the opaque informational value, and the raw-bytes view is the
(empty) input. -/
theorem makeEventData_total_RawBytes_witness :
    (Ev.makeEventData 0 .separator []).RawBytes = []
    ∧ Ev.makeEventData 0 .separator []
        = Ev.makeOpaqueEventData .separator [] := by
  exact ⟨(makeEventData_total_RawBytes 0 .separator []).1,
    (makeEventData_total_RawBytes 0 .separator []).2 (by decide)⟩

/-! ## C5: well-formed separator events -/

/-- C5.  For every separator event whose payload is exactly 4 bytes:
when the little-endian 32-bit value is 0 or 0xffffffff the event
decodes to a `Normal` separator whose `MeasuredBytes` is the raw 4-byte
payload; for any other value it decodes to an `Error` separator whose
`MeasuredBytes` is `None`. -/
theorem separator_fourByte (pcr : Nat) (data : List Nat)
    (h4 : data.length = 4) :
    (leUint32 data = 0 ∨ leUint32 data = 4294967295 →
        Ev.makeEventData pcr .separator data
          = .separator data SeparatorEventType.normal
        ∧ (Ev.makeEventData pcr .separator data).MeasuredBytes = some data)
    ∧ (leUint32 data ≠ 0 ∧ leUint32 data ≠ 4294967295 →
        Ev.makeEventData pcr .separator data
          = .separator data SeparatorEventType.error
        ∧ (Ev.makeEventData pcr .separator data).MeasuredBytes = none) := by
  constructor
  · intro hv
    have hmem : leUint32 data ∈ validNormalSeparatorValues := by
      simp only [validNormalSeparatorValues, List.mem_cons,
        List.mem_singleton, List.not_mem_nil, or_false]
      exact hv
    have hsep : Ev.makeEventDataSeparator data
        = some (.separator data SeparatorEventType.normal) := by
      simp [Ev.makeEventDataSeparator, h4, hmem]
    have hmk : Ev.makeEventData pcr .separator data
        = .separator data SeparatorEventType.normal := by
      show (Ev.makeEventDataSeparator data).getD
        (Ev.makeOpaqueEventData .separator data) = _
      rw [hsep]
      rfl
    exact ⟨hmk, by rw [hmk]; rfl⟩
  · rintro ⟨h0, hf⟩
    have hmem : leUint32 data ∉ validNormalSeparatorValues := by
      simp only [validNormalSeparatorValues, List.mem_cons,
        List.mem_singleton, List.not_mem_nil, or_false]
      exact not_or.mpr ⟨h0, hf⟩
    have hsep : Ev.makeEventDataSeparator data
        = some (.separator data SeparatorEventType.error) := by
      simp [Ev.makeEventDataSeparator, h4, hmem]
    have hmk : Ev.makeEventData pcr .separator data
        = .separator data SeparatorEventType.error := by
      show (Ev.makeEventDataSeparator data).getD
        (Ev.makeOpaqueEventData .separator data) = _
      rw [hsep]
      rfl
    exact ⟨hmk, by rw [hmk]; rfl⟩

/-- Witness for C5: the all-zero payload decodes to a measured `Normal`
separator, the payload 1 to an unmeasured `Error` separator. -/
theorem separator_fourByte_witness :
    (Ev.makeEventData 0 .separator [0, 0, 0, 0]
        = .separator [0, 0, 0, 0] SeparatorEventType.normal
      ∧ (Ev.makeEventData 0 .separator [0, 0, 0, 0]).MeasuredBytes
          = some [0, 0, 0, 0])
    ∧ (Ev.makeEventData 0 .separator [1, 0, 0, 0]
        = .separator [1, 0, 0, 0] SeparatorEventType.error
      ∧ (Ev.makeEventData 0 .separator [1, 0, 0, 0]).MeasuredBytes = none) :=
  ⟨(separator_fourByte 0 [0, 0, 0, 0] (by decide)).1 (Or.inl (by decide)),
   (separator_fourByte 0 [1, 0, 0, 0] (by decide)).2 ⟨by decide, by decide⟩⟩

/-! ## C10: malformed separator payloads -/

/-- C10.  For every separator event whose payload length is not exactly
4 bytes, the separator sub-decoder fails, the event silently decodes as
opaque informational data, its `MeasuredBytes` is `None` (so no digest
comparison will be performed for it and no error is raised), and the
raw bytes are retained. -/
theorem separator_badLength (pcr : Nat) (data : List Nat)
    (h : data.length ≠ 4) :
    Ev.makeEventDataSeparator data = none
    ∧ Ev.makeEventData pcr .separator data = .opaqueEventData data true
    ∧ (Ev.makeEventData pcr .separator data).MeasuredBytes = none
    ∧ (Ev.makeEventData pcr .separator data).RawBytes = data := by
  have hsep : Ev.makeEventDataSeparator data = none := by
    simp [Ev.makeEventDataSeparator, h]
  have hmk : Ev.makeEventData pcr .separator data
      = .opaqueEventData data true := by
    show (Ev.makeEventDataSeparator data).getD
      (Ev.makeOpaqueEventData .separator data) = _
    rw [hsep]
    rfl
  exact ⟨hsep, hmk, by rw [hmk]; rfl, by rw [hmk]; rfl⟩

/-- Witness for C10: a 3-byte separator payload becomes an opaque
informational event with no measured bytes. -/
theorem separator_badLength_witness :
    Ev.makeEventDataSeparator [255, 255, 255] = none
    ∧ Ev.makeEventData 7 .separator [255, 255, 255]
        = .opaqueEventData [255, 255, 255] true
    ∧ (Ev.makeEventData 7 .separator [255, 255, 255]).MeasuredBytes = none
    ∧ (Ev.makeEventData 7 .separator [255, 255, 255]).RawBytes
        = [255, 255, 255] :=
  separator_badLength 7 [255, 255, 255] (by decide)

/-! ## C6: IPL events on PCR 8 and PCR 9 -/

/-- C6.  An IPL event on PCR 8 whose data begins with
`"kernel_cmdline: "` decodes to `KernelCmdline` whose `MeasuredBytes`
is the data with that prefix removed and one trailing NUL byte removed;
one beginning with `"grub_cmd: "` decodes likewise to `GrubCmd`; data
with neither prefix decodes as opaque (informational); and every IPL
event on PCR 9 decodes as an informational ASCII string whose
`MeasuredBytes` is `None`. -/
theorem ipl_decode (data : List Nat) :
    (kernelCmdlinePfx.isPrefixOf data = true →
        Ev.makeEventData 8 .ipl data
          = .kernelCmdline data
              (trimSuffixNull (data.drop kernelCmdlinePfx.length))
        ∧ (Ev.makeEventData 8 .ipl data).MeasuredBytes
            = some (trimSuffixNull (data.drop kernelCmdlinePfx.length)))
    ∧ (kernelCmdlinePfx.isPrefixOf data = false →
        grubCmdPfx.isPrefixOf data = true →
        Ev.makeEventData 8 .ipl data
          = .grubCmd data (trimSuffixNull (data.drop grubCmdPfx.length))
        ∧ (Ev.makeEventData 8 .ipl data).MeasuredBytes
            = some (trimSuffixNull (data.drop grubCmdPfx.length)))
    ∧ (kernelCmdlinePfx.isPrefixOf data = false →
        grubCmdPfx.isPrefixOf data = false →
        Ev.makeEventData 8 .ipl data = .opaqueEventData data true
        ∧ (Ev.makeEventData 8 .ipl data).MeasuredBytes = none)
    ∧ (Ev.makeEventData 9 .ipl data = .asciiString data true
        ∧ (Ev.makeEventData 9 .ipl data).MeasuredBytes = none) := by
  refine ⟨?_, ?_, ?_, ?_⟩
  · intro hk
    have hipl : Ev.makeEventDataIPL 8 data
        = some (.kernelCmdline data
            (trimSuffixNull (data.drop kernelCmdlinePfx.length))) := by
      simp [Ev.makeEventDataIPL, hk]
    have hmk : Ev.makeEventData 8 .ipl data
        = .kernelCmdline data
            (trimSuffixNull (data.drop kernelCmdlinePfx.length)) := by
      show (Ev.makeEventDataIPL 8 data).getD
        (Ev.makeOpaqueEventData .ipl data) = _
      rw [hipl]
      rfl
    exact ⟨hmk, by rw [hmk]; rfl⟩
  · intro hk hg
    have hipl : Ev.makeEventDataIPL 8 data
        = some (.grubCmd data
            (trimSuffixNull (data.drop grubCmdPfx.length))) := by
      simp [Ev.makeEventDataIPL, hk, hg]
    have hmk : Ev.makeEventData 8 .ipl data
        = .grubCmd data (trimSuffixNull (data.drop grubCmdPfx.length)) := by
      show (Ev.makeEventDataIPL 8 data).getD
        (Ev.makeOpaqueEventData .ipl data) = _
      rw [hipl]
      rfl
    exact ⟨hmk, by rw [hmk]; rfl⟩
  · intro hk hg
    have hipl : Ev.makeEventDataIPL 8 data = none := by
      simp [Ev.makeEventDataIPL, hk, hg]
    have hmk : Ev.makeEventData 8 .ipl data = .opaqueEventData data true := by
      show (Ev.makeEventDataIPL 8 data).getD
        (Ev.makeOpaqueEventData .ipl data) = _
      rw [hipl]
      rfl
    exact ⟨hmk, by rw [hmk]; rfl⟩
  · have hmk : Ev.makeEventData 9 .ipl data = .asciiString data true := by
      show (Ev.makeEventDataIPL 9 data).getD
        (Ev.makeOpaqueEventData .ipl data) = _
      rfl
    exact ⟨hmk, by rw [hmk]; rfl⟩

/-- Witness for C6 (its conjuncts are conditional): the PCR-8 IPL event
`"kernel_cmdline: root=/dev/sda1\x00"` decodes to `KernelCmdline` whose
measured bytes are `"root=/dev/sda1"` -- the prefix and the trailing
NUL removed. -/
theorem ipl_decode_witness :
    Ev.makeEventData 8 .ipl (strBytes "kernel_cmdline: root=/dev/sda1\x00")
      = .kernelCmdline (strBytes "kernel_cmdline: root=/dev/sda1\x00")
          (strBytes "root=/dev/sda1")
    ∧ (Ev.makeEventData 8 .ipl
        (strBytes "kernel_cmdline: root=/dev/sda1\x00")).MeasuredBytes
      = some (strBytes "root=/dev/sda1") := by
  have h := (ipl_decode (strBytes "kernel_cmdline: root=/dev/sda1\x00")).1
    (by decide)
  refine ⟨h.1.trans (by decide), h.2.trans (by decide)⟩

/-! ## C7: image-load events with an unterminated device path -/

theorem readBytesN_all (l : List Nat) : readBytesN l.length l = some (l, []) := by
  simpa using readBytesN_exact l []

theorem Ev.readDevicePathNode_encode (n : EFIDevicePathNode) (rest : List Nat)
    (h : n.data.length ≤ 65531) :
    Ev.readDevicePathNode (encodeDevicePathNode n ++ rest) = some (n, rest) := by
  obtain ⟨t, subType, d⟩ := n
  simp only at h
  have hassoc : encodeDevicePathNode ⟨t, subType, d⟩ ++ rest
      = t :: subType :: (encodeU16 (d.length + 4) ++ (d ++ rest)) := by
    simp [encodeDevicePathNode]
  rw [hassoc]
  simp only [Ev.readDevicePathNode, readU8,
    readU16LE_encode (d.length + 4) (d ++ rest) (by omega)]
  have hlen : (d.length + 4 + 65532) % 65536 = d.length := by omega
  simp only [hlen]
  rcases Nat.eq_zero_or_pos d.length with h0 | hpos
  · have hd : d = [] := List.length_eq_zero.mp h0
    subst hd
    simp
  · rw [if_pos hpos]
    rw [show readBytesN d.length (d ++ rest) = some (d, rest) from
      readBytesN_exact d rest]

theorem encodeDevicePathNodes_length (ns : List EFIDevicePathNode) :
    ns.length ≤ (encodeDevicePathNodes ns).length := by
  induction ns with
  | nil => simp [encodeDevicePathNodes]
  | cons n ns ih =>
    have h1 : encodeDevicePathNodes (n :: ns)
        = encodeDevicePathNode n ++ encodeDevicePathNodes ns := by
      simp [encodeDevicePathNodes]
    have h2 : 1 ≤ (encodeDevicePathNode n).length := by
      simp [encodeDevicePathNode]
    rw [h1, List.length_append, List.length_cons]
    omega

theorem Ev.readDevicePathAux_noEoH (ns : List EFIDevicePathNode) :
    ∀ fuel, (∀ n ∈ ns, n.t ≠ efiDevicePathNodeEoH ∧ n.data.length ≤ 65531) →
      ns.length < fuel →
      Ev.readDevicePathAux fuel (encodeDevicePathNodes ns) = none := by
  induction ns with
  | nil =>
    intro fuel _ hf
    obtain ⟨fuel, rfl⟩ : ∃ k, fuel = k + 1 := ⟨fuel - 1, by omega⟩
    simp [Ev.readDevicePathAux, encodeDevicePathNodes, Ev.readDevicePathNode,
      readU8]
  | cons n ns ih =>
    intro fuel h hf
    obtain ⟨fuel, rfl⟩ : ∃ k, fuel = k + 1 := ⟨fuel - 1, by omega⟩
    have hn := h n (List.mem_cons_self n ns)
    have henc : encodeDevicePathNodes (n :: ns)
        = encodeDevicePathNode n ++ encodeDevicePathNodes ns := by
      simp [encodeDevicePathNodes]
    have htail := ih fuel (fun x hx => h x (List.mem_cons_of_mem n hx)) (by
      simp only [List.length_cons] at hf
      omega)
    rw [henc]
    simp [Ev.readDevicePathAux, Ev.readDevicePathNode_encode n _ hn.2, hn.1,
      htail]

theorem Ev.readDevicePath_noEoH (ns : List EFIDevicePathNode)
    (h : ∀ n ∈ ns, n.t ≠ efiDevicePathNodeEoH ∧ n.data.length ≤ 65531) :
    Ev.readDevicePath (encodeDevicePathNodes ns) = none := by
  unfold Ev.readDevicePath
  exact Ev.readDevicePathAux_noEoH ns _ h (by
    have := encodeDevicePathNodes_length ns
    omega)

/-- C7.  An image-load event whose embedded device path is a chain of
well-formed nodes with no trailing End-of-Hardware terminator makes the
image-load sub-decoder fail; the spec's `MalformedEvent` report (the
reporting layer is modelled from the spec) fires, and the event is
preserved as opaque with its raw bytes retained. -/
theorem imageLoad_missingEoH_opaque (pcr a b c : Nat)
    (ns : List EFIDevicePathNode) (data : List Nat)
    (ha : a < 18446744073709551616) (hb : b < 18446744073709551616)
    (hc : c < 18446744073709551616)
    (hlen : (encodeDevicePathNodes ns).length < 18446744073709551616)
    (hns : ∀ n ∈ ns, n.t ≠ efiDevicePathNodeEoH ∧ n.data.length ≤ 65531)
    (hdata : data = encodeU64 a ++ encodeU64 b ++ encodeU64 c ++
        encodeU64 (encodeDevicePathNodes ns).length ++
        encodeDevicePathNodes ns) :
    Ev.makeEventDataImageLoad data = none
    ∧ Ev.makeEventData pcr .efiBootServicesApplication data
        = .opaqueEventData data true
    ∧ (Ev.makeEventData pcr .efiBootServicesApplication data).RawBytes = data
    ∧ imageLoadMalformed data = true := by
  subst hdata
  have himg : Ev.makeEventDataImageLoad
      (encodeU64 a ++ encodeU64 b ++ encodeU64 c ++
        encodeU64 (encodeDevicePathNodes ns).length ++
        encodeDevicePathNodes ns) = none := by
    simp only [Ev.makeEventDataImageLoad, List.append_assoc]
    simp only [readU64LE_encode a _ ha, readU64LE_encode b _ hb,
      readU64LE_encode c _ hc,
      readU64LE_encode (encodeDevicePathNodes ns).length _ hlen,
      readBytesN_all, Ev.readDevicePath_noEoH ns hns]
  have heq : Ev.makeEventData pcr .efiBootServicesApplication
      (encodeU64 a ++ encodeU64 b ++ encodeU64 c ++
        encodeU64 (encodeDevicePathNodes ns).length ++
        encodeDevicePathNodes ns)
      = (Ev.makeEventDataImageLoad
          (encodeU64 a ++ encodeU64 b ++ encodeU64 c ++
            encodeU64 (encodeDevicePathNodes ns).length ++
            encodeDevicePathNodes ns)).getD
          (Ev.makeOpaqueEventData .efiBootServicesApplication
            (encodeU64 a ++ encodeU64 b ++ encodeU64 c ++
              encodeU64 (encodeDevicePathNodes ns).length ++
              encodeDevicePathNodes ns)) := rfl
  have hOpaqueFallback : Ev.makeEventData pcr .efiBootServicesApplication
      (encodeU64 a ++ encodeU64 b ++ encodeU64 c ++
        encodeU64 (encodeDevicePathNodes ns).length ++
        encodeDevicePathNodes ns)
      = .opaqueEventData
          (encodeU64 a ++ encodeU64 b ++ encodeU64 c ++
            encodeU64 (encodeDevicePathNodes ns).length ++
            encodeDevicePathNodes ns) true := by
    rw [heq, himg]
    rfl
  refine ⟨himg, hOpaqueFallback, ?_, ?_⟩
  · rw [hOpaqueFallback]
    rfl
  · unfold imageLoadMalformed
    rw [himg]
    rfl

/-- Witness for C7: a single PCI device-path node (type 1, sub-type 1,
no data) with no End-of-Hardware terminator; the image-load event around
it decodes as opaque informational data with its raw bytes retained. -/
theorem imageLoad_missingEoH_opaque_witness :
    Ev.makeEventDataImageLoad
        (encodeU64 0 ++ encodeU64 0 ++ encodeU64 0 ++ encodeU64 4 ++
          encodeDevicePathNodes [⟨1, 1, []⟩]) = none
    ∧ Ev.makeEventData 4 .efiBootServicesApplication
        (encodeU64 0 ++ encodeU64 0 ++ encodeU64 0 ++ encodeU64 4 ++
          encodeDevicePathNodes [⟨1, 1, []⟩])
        = .opaqueEventData
            (encodeU64 0 ++ encodeU64 0 ++ encodeU64 0 ++ encodeU64 4 ++
              encodeDevicePathNodes [⟨1, 1, []⟩]) true
    ∧ (Ev.makeEventData 4 .efiBootServicesApplication
        (encodeU64 0 ++ encodeU64 0 ++ encodeU64 0 ++ encodeU64 4 ++
          encodeDevicePathNodes [⟨1, 1, []⟩])).RawBytes
        = encodeU64 0 ++ encodeU64 0 ++ encodeU64 0 ++ encodeU64 4 ++
          encodeDevicePathNodes [⟨1, 1, []⟩]
    ∧ imageLoadMalformed
        (encodeU64 0 ++ encodeU64 0 ++ encodeU64 0 ++ encodeU64 4 ++
          encodeDevicePathNodes [⟨1, 1, []⟩]) = true :=
  imageLoad_missingEoH_opaque 4 0 0 0 [⟨1, 1, []⟩] _
    (by decide) (by decide) (by decide) (by decide) (by decide) rfl

/-! ## C8: device-path nodes with length < 4 -/

/-- C8 (the divergence between the two revisions).  On a device-path
node header declaring `length = 3`, the src/efi.go `readDevicePathNode`
rejects the node (`length < 4` check); the src/eventdata.go revision
instead evaluates `length -= 4` on the `uint16`, wrapping around to
65535, and happily reads 65535 data bytes when the stream supplies
them -- so the claim that the subtraction is never evaluated on an
operand below 4 fails on that path. -/
theorem Ev.readDevicePathNode_wrap (R : List Nat) (hR : R.length = 65535) :
    Ev.readDevicePathNode (1 :: 1 :: 3 :: 0 :: R) = some (⟨1, 1, R⟩, []) := by
  simp only [Ev.readDevicePathNode, readU8, readU16LE]
  have h1 : (3 + 256 * 0 + 65532) % 65536 = 65535 := by norm_num
  rw [h1]
  have h2 : readBytesN 65535 R = some (R, []) := by
    rw [← hR]
    exact readBytesN_all R
  rw [h2]
  simp

theorem devicePathNode_shortLength_paths :
    Efi.readDevicePathNode [1, 1, 3, 0] = none
    ∧ Ev.readDevicePathNode (1 :: 1 :: 3 :: 0 :: List.replicate 65535 170)
        = some (⟨1, 1, List.replicate 65535 170⟩, []) := by
  constructor
  · decide
  · exact Ev.readDevicePathNode_wrap _ (List.length_replicate 65535 170)

/-! ## C9: the two EFIGUID display strings agree -/

theorem hexPad_four_split (n : Nat) :
    hexPad 4 n = hexPad 2 (n / 256) ++ hexPad 2 (n % 256) := by
  have lhs : hexPad 4 n =
      [hexDigitCode (n / 16 / 16 / 16 % 16), hexDigitCode (n / 16 / 16 % 16),
       hexDigitCode (n / 16 % 16), hexDigitCode (n % 16)] := rfl
  have rhs1 : hexPad 2 (n / 256) =
      [hexDigitCode (n / 256 / 16 % 16), hexDigitCode (n / 256 % 16)] := rfl
  have rhs2 : hexPad 2 (n % 256) =
      [hexDigitCode (n % 256 / 16 % 16), hexDigitCode (n % 256 % 16)] := rfl
  rw [lhs, rhs1, rhs2]
  have h1 : n / 16 / 16 / 16 % 16 = n / 256 / 16 % 16 := by omega
  have h2 : n / 16 / 16 % 16 = n / 256 % 16 := by omega
  have h3 : n / 16 % 16 = n % 256 / 16 % 16 := by omega
  have h4 : n % 16 = n % 256 % 16 := by omega
  rw [h1, h2, h3, h4]
  rfl

/-- C9.  On every 16-byte input, the legacy decoder (src/efi.go) reads
the fourth 2-byte component `D` big-endian (`D = 256 * b8 + b9`) while
the canonical decoder (src/eventdata.go) keeps the 8-byte tail as raw
bytes; nevertheless the display strings produced by the two `String()`
methods are identical. -/
theorem efiguid_display_eq
    (b0 b1 b2 b3 b4 b5 b6 b7 b8 b9 b10 b11 b12 b13 b14 b15 : Nat)
    (h : ∀ x ∈ [b0, b1, b2, b3, b4, b5, b6, b7, b8, b9, b10, b11, b12, b13,
        b14, b15], x < 256) :
    ∃ g1 g2,
      Efi.decodeEFIGUID
          [b0, b1, b2, b3, b4, b5, b6, b7, b8, b9, b10, b11, b12, b13, b14,
           b15] = some (g1, [])
      ∧ Ev.readEFIGUID
          [b0, b1, b2, b3, b4, b5, b6, b7, b8, b9, b10, b11, b12, b13, b14,
           b15] = some (g2, [])
      ∧ g1.D = 256 * b8 + b9
      ∧ g2.Data4 = [b8, b9, b10, b11, b12, b13, b14, b15]
      ∧ g1.display = g2.display := by
  have hb9 : b9 < 256 := h b9 (by simp)
  refine ⟨⟨b0 + 256 * b1 + 65536 * b2 + 16777216 * b3, b4 + 256 * b5,
      b6 + 256 * b7, 256 * b8 + b9, [b10, b11, b12, b13, b14, b15]⟩,
    ⟨b0 + 256 * b1 + 65536 * b2 + 16777216 * b3, b4 + 256 * b5,
      b6 + 256 * b7, [b8, b9, b10, b11, b12, b13, b14, b15]⟩,
    rfl, rfl, rfl, rfl, ?_⟩
  have hd : (256 * b8 + b9) / 256 = b8 := by omega
  have hm : (256 * b8 + b9) % 256 = b9 := by omega
  simp only [Efi.EFIGUID.display, Ev.EFIGUID.display, hexPad_four_split,
    hd, hm]
  simp [hexBytes]

/-- Witness for C9: the EFI global-variable GUID
8be4df61-93ca-11d2-aa0d-00e098032b8c, as the 16 on-disk bytes; both
decoders render the same display string. -/
theorem efiguid_display_eq_witness :
    ∃ g1 g2,
      Efi.decodeEFIGUID
          [97, 223, 228, 139, 202, 147, 210, 17, 170, 13, 0, 224, 152, 3,
           43, 140] = some (g1, [])
      ∧ Ev.readEFIGUID
          [97, 223, 228, 139, 202, 147, 210, 17, 170, 13, 0, 224, 152, 3,
           43, 140] = some (g2, [])
      ∧ g1.D = 256 * 170 + 13
      ∧ g2.Data4 = [170, 13, 0, 224, 152, 3, 43, 140]
      ∧ g1.display = g2.display :=
  efiguid_display_eq 97 223 228 139 202 147 210 17 170 13 0 224 152 3 43 140
    (by decide)

end Tcglog
